import Mathlib

/-!
# Verification of the Stud agentic chat subsystem

Shallow embedding of the core of `src/lib/ai/codex-chat.ts` (stream event
parsing, tool-call accumulation, tool dispatch, the agentic loop) and
`src/lib/auth/codex.ts` (token lifecycle), together with proofs of the
spec's testable properties.

Conventions of the embedding:
* JavaScript strings are modelled as Lean `String` (or `List Char` where
  we reason about the byte/character stream); `TextDecoder` reassembly of
  split UTF-8 code points is the host's contract, so stream chunks are
  modelled at code-point granularity.
* A JavaScript value that may be `undefined` is an `Option`.
* JavaScript truthiness on strings (`""` and `undefined` are falsy) is
  `jsTruthy`; the `a || b` idiom is `jsOr` / `jsOrOpt`.
* Host primitives (`JSON.parse`, `atob`, the network) are parameters of
  the functions that call them, so theorems quantify over their behaviour.
-/

namespace Stud

/-- JS truthiness of a possibly-undefined string: `undefined` and `""` are
falsy. -/
def jsTruthy : Option String → Bool
  | none => false
  | some s => !s.isEmpty

/-- JS `a || b` where `a : string | undefined` and `b : string`. -/
def jsOr (a : Option String) (b : String) : String :=
  if jsTruthy a then a.getD b else b

/-- JS `a || b` where both sides are `string | undefined`. -/
def jsOrOpt (a b : Option String) : Option String :=
  if jsTruthy a then a else b

/-- JS `a || b` on two plain strings (`""` is falsy). -/
def jsOrS (a b : String) : String :=
  if a.isEmpty then b else a

/-! ## Stream event parser (`makeCodexRequest`, reading loop)

The TS reading loop keeps a rolling text buffer:
```
buffer += decoder.decode(value, { stream: true });
const lines = buffer.split("\n");
buffer = lines.pop() || "";
for (const line of lines) ...
```
`splitLines s` returns the pair (complete lines of `s`, trailing piece
after the last newline), i.e. (`s.split("\n")` minus its last element,
that last element). -/

/-- Prepend one character to a (complete lines, trailing piece) split: a
newline closes off a new first line, any other character extends the
first line (or the trailing piece when no line is complete yet). -/
def consLine (c : Char) (p : List (List Char) × List Char) :
    List (List Char) × List Char :=
  if c = '\n' then ([] :: p.1, p.2)
  else
    match p with
    | ([], r) => ([], c :: r)
    | (l :: ls, r) => ((c :: l) :: ls, r)

/-- Split a character stream into its newline-terminated complete lines
and the trailing incomplete line: the pair
(`s.split("\n")` minus its last element, that last element). -/
def splitLines : List Char → List (List Char) × List Char
  | [] => ([], [])
  | c :: cs => consLine c (splitLines cs)

/-- An SSE content part as accessed by the TS code (`part.type`,
`part.text`). -/
structure ContentPart where
  type : Option String
  text : Option String
deriving DecidableEq, Repr

/-- The fields of `parsed.item` that the TS code reads. -/
structure SSEItem where
  type : Option String
  id : Option String
  call_id : Option String
  name : Option String
  arguments : Option String
  content : Option (List ContentPart)
deriving DecidableEq, Repr

/-- The fields of a parsed stream event (`parsed`) that the TS code
reads. -/
structure SSEEvent where
  type : Option String
  delta : Option String
  call_id : Option String
  item_id : Option String
  item : Option SSEItem
deriving DecidableEq, Repr

/-- The SSE frame header `"data: "` tested by
`line.startsWith("data: ")`; `stripDataHeader` also performs
`line.slice(6)`. -/
def stripDataHeader : List Char → Option (List Char)
  | 'd' :: 'a' :: 't' :: 'a' :: ':' :: ' ' :: rest => some rest
  | _ => none

/-- The `[DONE]` sentinel payload. -/
def doneSentinel : List Char := ['[', 'D', 'O', 'N', 'E', ']']

/-- Decode one complete line into at most one stream event.  `parse`
stands for the host `JSON.parse` composed with reading the fields of
`SSEEvent`; it returns `none` when `JSON.parse` throws (the TS code
skips such lines). -/
def decodeLine (parse : List Char → Option SSEEvent) (line : List Char) :
    Option SSEEvent :=
  match stripDataHeader line with
  | none => none
  | some payload =>
    if payload = doneSentinel then none else parse payload

/-- One iteration of the reading loop: append the chunk to the rolling
buffer, split off the complete lines, decode them in order, and keep the
trailing incomplete line as the new buffer. -/
def processChunk (parse : List Char → Option SSEEvent)
    (st : List SSEEvent × List Char) (chunk : List Char) :
    List SSEEvent × List Char :=
  let p := splitLines (st.2 ++ chunk)
  (st.1 ++ p.1.filterMap (decodeLine parse), p.2)

/-- Feed a whole sequence of chunks through the reading loop, starting
from an empty event list and an empty buffer. -/
def processStream (parse : List Char → Option SSEEvent)
    (chunks : List (List Char)) : List SSEEvent × List Char :=
  chunks.foldl (processChunk parse) ([], [])

/-! ## Tool call accumulator (`makeCodexRequest`, per-event processing)

The TS code keeps `text`, `toolCalls` and
`pendingToolCalls : Map<string, {name, arguments}>` and updates them with
a sequence of independent `if` blocks per parsed event. -/

/-- Test that `needle` starts `hay` (character lists). -/
def startsWithChars : List Char → List Char → Bool
  | _, [] => true
  | [], _ :: _ => false
  | a :: hay, b :: needle => a = b && startsWithChars hay needle

/-- JS `hay.includes(sub)`: `sub` occurs contiguously in `hay`. -/
def hasSubstring : List Char → List Char → Bool
  | [], sub => sub.isEmpty
  | c :: cs, sub => startsWithChars (c :: cs) sub || hasSubstring cs sub

/-- JS `s.includes(t)` on strings. -/
def strIncludes (s t : String) : Bool :=
  hasSubstring s.toList t.toList

/-- A pending tool call: `{ name, arguments }` value of the
`pendingToolCalls` map, while argument deltas are still streaming. -/
structure PendingCall where
  name : Option String
  arguments : String
deriving DecidableEq, Repr

/-- A finalized tool call pushed onto `toolCalls`.  The id is
`item.call_id || item.id`, which can be `undefined` in JS, hence
`Option`. -/
structure ToolCall where
  id : Option String
  name : Option String
  arguments : String
deriving DecidableEq, Repr

/-- JS `Map.get`. -/
def mapGet (m : List (Option String × PendingCall)) (k : Option String) :
    Option PendingCall :=
  (m.find? (fun p => p.1 == k)).map (·.2)

/-- JS `Map.set`: update in place when the key exists, append
otherwise. -/
def mapSet (m : List (Option String × PendingCall)) (k : Option String)
    (v : PendingCall) : List (Option String × PendingCall) :=
  if (m.find? (fun p => p.1 == k)).isSome then
    m.map (fun p => if p.1 == k then (k, v) else p)
  else m ++ [(k, v)]

/-- JS `Map.delete`. -/
def mapDelete (m : List (Option String × PendingCall)) (k : Option String) :
    List (Option String × PendingCall) :=
  m.filter (fun p => !(p.1 == k))

/-- The mutable state of `makeCodexRequest`'s streaming loop. -/
structure StreamState where
  text : String
  toolCalls : List ToolCall
  pending : List (Option String × PendingCall)
deriving DecidableEq, Repr

/-- The `for (const part of content)` loop of the item-done block:
append each `output_text` part's text unless it is already a substring of
the accumulated text. -/
def appendParts (text : String) : List ContentPart → String
  | [] => text
  | part :: rest =>
    let t := jsOr part.text ""
    let text' :=
      if part.type == some "output_text" && jsTruthy part.text
          && !strIncludes text t then
        text ++ t
      else text
    appendParts text' rest

/-- Process one decoded stream event, mirroring the successive `if`
blocks of the TS loop body (text delta; function call started; argument
delta; function call completed; completed output text). -/
def processEvent (st : StreamState) (e : SSEEvent) : StreamState :=
  -- if (parsed.type === "response.output_text.delta")
  let st1 :=
    if e.type = some "response.output_text.delta" then
      { st with text := st.text ++ jsOr e.delta "" }
    else st
  -- if (parsed.type === "response.output_item.added"
  --     && parsed.item?.type === "function_call")
  let st2 :=
    if e.type = some "response.output_item.added" then
      match e.item with
      | some item =>
        if item.type = some "function_call" then
          let entry : PendingCall := { name := item.name, arguments := "" }
          let pending1 := mapSet st1.pending (jsOrOpt item.call_id item.id) entry
          { st1 with pending := pending1 }
        else st1
      | none => st1
    else st1
  -- if (parsed.type === "response.function_call_arguments.delta")
  let st3 :=
    if e.type = some "response.function_call_arguments.delta" then
      let callId := jsOrOpt e.call_id e.item_id
      match mapGet st2.pending callId with
      | some existing =>
        let entry : PendingCall :=
          { existing with arguments := existing.arguments ++ jsOr e.delta "" }
        { st2 with pending := mapSet st2.pending callId entry }
      | none => st2
    else st2
  -- if (parsed.type === "response.output_item.done"
  --     && parsed.item?.type === "function_call")
  let st4 :=
    if e.type = some "response.output_item.done" then
      match e.item with
      | some item =>
        if item.type = some "function_call" then
          let callId := jsOrOpt item.call_id item.id
          { st3 with
              toolCalls := st3.toolCalls ++
                [{ id := callId, name := item.name,
                   arguments := jsOr item.arguments "\x7b\x7d" }],
              pending := mapDelete st3.pending callId }
        else st3
      | none => st3
    else st3
  -- if (parsed.type === "response.output_item.done" && parsed.item?.content)
  if e.type = some "response.output_item.done" then
    match e.item with
    | some item =>
      match item.content with
      | some parts => { st4 with text := appendParts st4.text parts }
      | none => st4
    | none => st4
  else st4

/-- Fold a whole decoded event sequence through the stream state. -/
def runEvents (es : List SSEEvent) : StreamState :=
  es.foldl processEvent { text := "", toolCalls := [], pending := [] }

/-! ## Tool dispatch (`executeTool`)

`robloxTools` maps a tool name to an object with an optional `execute`
function.  A throwing handler is modelled as `Except.error s` where `s`
stands for `String(err)`. -/

/-- A JSON-like value, used for tool arguments and tool outcomes. -/
inductive Jv where
  | null : Jv
  | bool (b : Bool) : Jv
  | num (n : Int) : Jv
  | str (s : String) : Jv
  | arr (xs : List Jv) : Jv
  | obj (fields : List (String × Jv)) : Jv

/-- A parsed tool-argument record (`Record<string, unknown>`). -/
def ArgsRecord := List (String × Jv)

/-- A registered tool as `executeTool` reads it: a possibly missing
`execute` member; the handler either returns a value or throws. -/
structure ToolEntry where
  execute : Option (ArgsRecord → Except String Jv)

/-- The tool registry (`robloxTools`): tool name to entry, `none` for an
unregistered name. -/
def ToolRegistry := String → Option ToolEntry

/-- Function `executeTool(toolName, args)`: fails closed, returning an ordinary
`{error: ...}` object for an unknown tool, a tool without an `execute`
member, or a throwing handler.  Totality of this function is the
"never throws" part of the contract. -/
def executeTool (registry : ToolRegistry) (toolName : String)
    (args : ArgsRecord) : Jv :=
  match registry toolName with
  | none => Jv.obj [("error", Jv.str ("Unknown tool: " ++ toolName))]
  | some tool =>
    match tool.execute with
    | none =>
      Jv.obj [("error", Jv.str ("Tool " ++ toolName ++ " has no execute function"))]
    | some f =>
      match f args with
      | Except.ok result => result
      | Except.error err => Jv.obj [("error", Jv.str err)]

/-! ## Token lifecycle (`src/lib/auth/codex.ts`)

Host primitives are parameters: `refreshFn` stands for the
`refreshAccessToken` network call (throwing = `Except.error`),
`decodeJwtFn` for `decodeJwt` (whose body is `atob` + `JSON.parse`), and
`now` for `Date.now()`. -/

/-- The nested `"https://api.openai.com/auth"` claim object. -/
structure ApiAuthClaim where
  chatgpt_account_id : Option String
deriving DecidableEq, Repr

/-- One entry of the `organizations` claim list. -/
structure OrgEntry where
  id : String
deriving DecidableEq, Repr

/-- The id-token claims object (`IdTokenClaims`). -/
structure IdTokenClaims where
  chatgpt_account_id : Option String
  apiAuth : Option ApiAuthClaim
  organizations : Option (List OrgEntry)
  email : Option String
deriving DecidableEq, Repr

/-- Function `extractAccountIdFromClaims`: the JS `a || b || c` chain
`claims.chatgpt_account_id ||
 claims["https://api.openai.com/auth"]?.chatgpt_account_id ||
 claims.organizations?.[0]?.id`. -/
def extractAccountIdFromClaims (claims : IdTokenClaims) : Option String :=
  jsOrOpt claims.chatgpt_account_id
    (jsOrOpt (claims.apiAuth.bind (·.chatgpt_account_id))
      ((claims.organizations.bind List.head?).map (·.id)))

/-- The persisted credential record (`OAuthAuth`); `expires` is epoch
milliseconds. -/
structure OAuthAuth where
  access : String
  refresh : String
  expires : Int
  accountId : Option String
deriving DecidableEq, Repr

/-- A token-endpoint response (`TokenResponse`), with the `id_token`
kept as its raw string (decoded by `decodeJwtFn`). -/
structure TokenResponse where
  access_token : String
  refresh_token : String
  expires_in : Int
  id_token : Option String
deriving DecidableEq, Repr

/-- Result of one `getValidAccessToken()` call: the returned token, the
credential left in storage, and how many refresh-token exchanges were
performed. -/
structure TokenResult where
  token : Option String
  stored : Option OAuthAuth
  refreshCalls : Nat
deriving DecidableEq, Repr

/-- The 5-minute safety margin, in milliseconds (`bufferMs`). -/
def bufferMs : Int := 5 * 60 * 1000

/-- Function `getValidAccessToken()`: return the cached token while
`auth.expires - bufferMs > Date.now()`; otherwise perform exactly one
refresh exchange; any throw inside the `try` block (the network call or
`decodeJwt`) clears storage and yields `null`. -/
def getValidAccessToken (stored : Option OAuthAuth) (now : Int)
    (refreshFn : String → Except String TokenResponse)
    (decodeJwtFn : String → Except String IdTokenClaims) : TokenResult :=
  match stored with
  | none => { token := none, stored := none, refreshCalls := 0 }
  | some auth =>
    if auth.expires - bufferMs > now then
      { token := some auth.access, stored := some auth, refreshCalls := 0 }
    else
      match refreshFn auth.refresh with
      | Except.error _ =>
        -- catch: clearAuth(); return null
        { token := none, stored := none, refreshCalls := 1 }
      | Except.ok tokens =>
        let accountIdStep : Except String (Option String) :=
          match tokens.id_token with
          | none => Except.ok auth.accountId
          | some idt =>
            (decodeJwtFn idt).map
              (fun claims => jsOrOpt (extractAccountIdFromClaims claims) auth.accountId)
        match accountIdStep with
        | Except.error _ =>
          -- a decodeJwt throw is caught by the same catch block
          { token := none, stored := none, refreshCalls := 1 }
        | Except.ok accountId =>
          let newAuth : OAuthAuth :=
            { access := tokens.access_token,
              refresh := jsOrS tokens.refresh_token auth.refresh,
              expires := now + tokens.expires_in * 1000,
              accountId := accountId }
          { token := some newAuth.access, stored := some newAuth, refreshCalls := 1 }

/-- The PKCE verifier/challenge pair. -/
structure PkceCodes where
  verifier : String
  challenge : String
deriving DecidableEq, Repr

/-- Result of one `handleOAuthCallback` call: the returned credential or
the thrown error message, the credential persisted by `saveAuth` (if
any), and how many code-exchange network calls were made. -/
structure CallbackResult where
  outcome : Except String OAuthAuth
  saved : Option OAuthAuth
  exchangeCalls : Nat

/-- Function `handleOAuthCallback(code, state)`: check session storage for the
pending request, validate the anti-CSRF state, then exchange the code
(`exchangeFn` stands for `exchangeCodeForTokens`) and persist the
credential.  Errors before the exchange mean no network call and nothing
saved. -/
def handleOAuthCallback (state : String)
    (storedState : Option String) (storedPkce : Option PkceCodes)
    (now : Int)
    (exchangeFn : PkceCodes → Except String TokenResponse)
    (decodeJwtFn : String → Except String IdTokenClaims) : CallbackResult :=
  match storedState, storedPkce with
  | none, _ =>
    { outcome := Except.error "No pending OAuth request found",
      saved := none, exchangeCalls := 0 }
  | some _, none =>
    { outcome := Except.error "No pending OAuth request found",
      saved := none, exchangeCalls := 0 }
  | some ss, some pkce =>
    if state ≠ ss then
      { outcome := Except.error "OAuth state mismatch - possible CSRF attack",
        saved := none, exchangeCalls := 0 }
    else
      match exchangeFn pkce with
      | Except.error e =>
        { outcome := Except.error e, saved := none, exchangeCalls := 1 }
      | Except.ok tokens =>
        let accountIdStep : Except String (Option String) :=
          match tokens.id_token with
          | none => Except.ok none
          | some idt => (decodeJwtFn idt).map extractAccountIdFromClaims
        match accountIdStep with
        | Except.error e =>
          -- a decodeJwt throw propagates out of handleOAuthCallback
          { outcome := Except.error e, saved := none, exchangeCalls := 1 }
        | Except.ok accountId =>
          let auth : OAuthAuth :=
            { access := tokens.access_token,
              refresh := tokens.refresh_token,
              expires := now + tokens.expires_in * 1000,
              accountId := accountId }
          { outcome := Except.ok auth, saved := some auth, exchangeCalls := 1 }

/-! ## Agentic loop controller (`codexChat`)

`makeCodexRequest` performs exactly one outbound request per call and
returns `{text, toolCalls}`; its behaviour is abstracted as an `oracle`
from the transmitted transcript to that result (a "model behaviour").
`JSON.parse` of tool arguments and `JSON.stringify` of tool outputs are
host primitives, passed as parameters. -/

/-- The iteration ceiling `MAX_ITERATIONS = 10`. -/
def MAX_ITERATIONS : Nat := 10

/-- A chat role. -/
inductive Role where
  | user : Role
  | assistant : Role
deriving DecidableEq, Repr

/-- An input chat message (`CodexMessage`). -/
structure CodexMessage where
  role : Role
  content : String
deriving DecidableEq, Repr

/-- One transcript item of the Responses API input (`InputItem`). -/
inductive InputItem where
  | userText (text : String) : InputItem
  | assistantText (text : String) : InputItem
  | functionCall (call_id : Option String) (name : Option String)
      (arguments : String) : InputItem
  | functionCallOutput (call_id : Option String) (output : String) : InputItem
deriving DecidableEq, Repr

/-- Function `convertToCodexInput`: seed the transcript from the prior chat
messages. -/
def convertToCodexInput (messages : List CodexMessage) : List InputItem :=
  messages.map (fun msg =>
    match msg.role with
    | Role.user => InputItem.userText msg.content
    | Role.assistant => InputItem.assistantText msg.content)

/-- What one `makeCodexRequest` call returns to the loop. -/
structure TurnResult where
  text : String
  toolCalls : List ToolCall
deriving Repr

/-- A model behaviour: the `{text, toolCalls}` outcome of the single
outbound request carrying a given transcript. -/
def Oracle := List InputItem → TurnResult

/-- The transcript items appended for one finalized tool call: the
`function_call` is pushed, the arguments are parsed (defaulting to an
empty record), the tool is executed, and the `function_call_output` is
pushed.  `tc.name.getD "undefined"` models the JS coercion of an
undefined name at the registry lookup/interpolation. -/
def applyToolCall (registry : ToolRegistry)
    (parseArgs : String → Option ArgsRecord) (stringifyFn : Jv → String)
    (tc : ToolCall) : List InputItem :=
  let args : ArgsRecord := (parseArgs tc.arguments).getD []
  let output := executeTool registry (tc.name.getD "undefined") args
  [InputItem.functionCall tc.id tc.name tc.arguments,
   InputItem.functionCallOutput tc.id (stringifyFn output)]

/-- All transcript items appended after one turn: one
`function_call`/`function_call_output` pair per tool call, in emission
order. -/
def pairedBlock (registry : ToolRegistry)
    (parseArgs : String → Option ArgsRecord) (stringifyFn : Jv → String)
    (r : TurnResult) : List InputItem :=
  r.toolCalls.flatMap (applyToolCall registry parseArgs stringifyFn)

/-- The observable outcome of one `codexChat` run: the final text, the
transcript carried by each outbound request in order, the final value of
the iteration counter, and the final transcript. -/
structure LoopOutcome where
  text : String
  requests : List (List InputItem)
  iterations : Nat
  history : List InputItem
deriving Repr

/-- The `while (iteration < MAX_ITERATIONS)` loop of `codexChat`, with
`fuel = MAX_ITERATIONS - iteration` making the guard structural.  Each
unfolding increments the counter, issues one request (recorded in
`reqs`), accumulates the turn's text, and either breaks (no tool calls)
or appends the paired tool-call items and continues. -/
def loopGo (oracle : Oracle) (registry : ToolRegistry)
    (parseArgs : String → Option ArgsRecord) (stringifyFn : Jv → String) :
    Nat → Nat → List InputItem → String → List (List InputItem) → LoopOutcome
  | 0, iter, hist, txt, reqs =>
    { text := txt, requests := reqs, iterations := iter, history := hist }
  | fuel + 1, iter, hist, txt, reqs =>
    let r := oracle hist
    let txt' := txt ++ r.text
    let reqs' := reqs ++ [hist]
    if r.toolCalls.isEmpty then
      { text := txt', requests := reqs', iterations := iter + 1, history := hist }
    else
      loopGo oracle registry parseArgs stringifyFn fuel (iter + 1)
        (hist ++ pairedBlock registry parseArgs stringifyFn r) txt' reqs'

/-- The ceiling-reached advisory string, i.e.
advisory appended to the final text. -/
def advisoryText : String := "\n\n[Reached maximum tool call limit]"

/-- The post-loop step of `codexChat`: if the final iteration counter
reached `MAX_ITERATIONS`, append the advisory to the accumulated
text. -/
def finishRun (res : LoopOutcome) : LoopOutcome :=
  if res.iterations ≥ MAX_ITERATIONS then
    { res with text := res.text ++ advisoryText }
  else res

/-- Function `codexChat`: run the agentic loop from the seeded transcript, then
apply the ceiling advisory step. -/
def codexChat (oracle : Oracle) (registry : ToolRegistry)
    (parseArgs : String → Option ArgsRecord) (stringifyFn : Jv → String)
    (messages : List CodexMessage) : LoopOutcome :=
  finishRun (loopGo oracle registry parseArgs stringifyFn MAX_ITERATIONS 0
    (convertToCodexInput messages) "" [])

/-- The transcript-pairing invariant over a run's request trace: each
outbound request's transcript extends the previous one exactly by the
paired `function_call`/`function_call_output` items of the previous
turn's tool calls, in emission order. -/
def chainLinked (registry : ToolRegistry)
    (parseArgs : String → Option ArgsRecord) (stringifyFn : Jv → String)
    (oracle : Oracle) (reqs : List (List InputItem)) : Prop :=
  ∀ (i : Nat) (a b : List InputItem), reqs[i]? = some a → reqs[i + 1]? = some b →
    b = a ++ pairedBlock registry parseArgs stringifyFn (oracle a)

/-! ## Concrete fixtures used by witnesses and counterexamples -/

/-- An empty tool registry. -/
def regNone : ToolRegistry := fun _ => none

/-- A registry with a single tool `"boom"` whose handler throws. -/
def regBoom : ToolRegistry := fun n =>
  if n = "boom" then some { execute := some (fun _ => Except.error "kaboom") }
  else none

/-- An argument parser standing for a `JSON.parse` that always throws. -/
def parseNone : String → Option ArgsRecord := fun _ => none

/-- A stringifier standing for `JSON.stringify`, returning a fixed
serialization. -/
def stringifyConst : Jv → String := fun _ => "OUT"

/-- A model behaviour that requests one tool call on every turn. -/
def oracleAlways : Oracle := fun _ =>
  { text := "x", toolCalls := [{ id := some "c", name := some "t", arguments := "\x7b\x7d" }] }

/-- A model behaviour that requests a tool call on its first nine turns
(transcript lengths 1, 3, ..., 17) and none on its tenth (length 19). -/
def oracleNine : Oracle := fun hist =>
  if hist.length < 19 then
    { text := "a", toolCalls := [{ id := some "c", name := some "t", arguments := "\x7b\x7d" }] }
  else { text := "b", toolCalls := [] }

/-- A model behaviour that requests one tool call on its first turn and
none afterwards. -/
def oracleOnce : Oracle := fun hist =>
  if hist.length ≤ 1 then
    { text := "t1", toolCalls := [{ id := some "c1", name := some "t", arguments := "\x7b\x7d" }] }
  else { text := "t2", toolCalls := [] }

/-- A tool-call-opened event for `call_1` (fixture for C1). -/
def evAddedC1 : SSEEvent :=
  { type := some "response.output_item.added", delta := none, call_id := none,
    item_id := none,
    item := some { type := some "function_call", id := some "call_1",
                   call_id := some "call_1", name := some "get_scene",
                   arguments := none, content := none } }

/-- An argument-fragment event for `call_1` carrying the fragment
`"ARGS"` (fixture for C1). -/
def evArgsDeltaC1 : SSEEvent :=
  { type := some "response.function_call_arguments.delta", delta := some "ARGS",
    call_id := some "call_1", item_id := none, item := none }

/-- A tool-call-finalized event for `call_1` whose own
complete-arguments field is absent (fixture for C1). -/
def evDoneC1 : SSEEvent :=
  { type := some "response.output_item.done", delta := none, call_id := none,
    item_id := none,
    item := some { type := some "function_call", id := some "call_1",
                   call_id := some "call_1", name := some "get_scene",
                   arguments := none, content := none } }

/-- A stream state with one pending tool call whose buffer already holds
`"AB"` (fixture for the amended C1 witness). -/
def stC1 : StreamState :=
  { text := "", toolCalls := [],
    pending := [(some "call_1", { name := some "get_scene", arguments := "AB" })] }

/-! ## Theorems -/

/-- Claim C5: for every stored credential, `getValidAccessToken` returns
the cached access token unchanged, with no refresh exchange, whenever
the stored expiry is more than the 5-minute margin after the current
time; and whenever the expiry is within (or past) the margin it performs
exactly one refresh-token exchange. -/
theorem getValidAccessToken_margin
    (auth : OAuthAuth) (now : Int)
    (refreshFn : String → Except String TokenResponse)
    (decodeJwtFn : String → Except String IdTokenClaims) :
    (auth.expires - bufferMs > now →
      getValidAccessToken (some auth) now refreshFn decodeJwtFn =
        { token := some auth.access, stored := some auth, refreshCalls := 0 }) ∧
    (¬ auth.expires - bufferMs > now →
      (getValidAccessToken (some auth) now refreshFn decodeJwtFn).refreshCalls = 1) := by
  constructor
  · intro h
    simp [getValidAccessToken, h]
  · intro h
    simp only [getValidAccessToken, if_neg h]
    cases refreshFn auth.refresh with
    | error e => rfl
    | ok tokens =>
      cases hid : tokens.id_token with
      | none => simp [hid]
      | some idt =>
        cases hdec : decodeJwtFn idt with
        | error e => simp [hid, hdec, Except.map]
        | ok claims => simp [hid, hdec, Except.map]

/-- Witness for C5 at a concrete credential, both on the fresh side and
on the expired side of the margin. -/
theorem getValidAccessToken_margin_witness :
    (getValidAccessToken
        (some { access := "A", refresh := "R", expires := 1000000, accountId := none })
        0 (fun _ => Except.error "down") (fun _ => Except.error "bad") =
      { token := some "A",
        stored := some { access := "A", refresh := "R", expires := 1000000, accountId := none },
        refreshCalls := 0 }) ∧
    (getValidAccessToken
        (some { access := "A", refresh := "R", expires := 1000000, accountId := none })
        999999 (fun _ => Except.error "down") (fun _ => Except.error "bad")).refreshCalls = 1 :=
  ⟨(getValidAccessToken_margin _ 0 _ _).1 (by decide),
   (getValidAccessToken_margin _ 999999 _ _).2 (by decide)⟩

/-- Claim C6: whenever the refresh-token exchange inside
`getValidAccessToken` fails, all persisted credential state is cleared
and no token is returned. -/
theorem getValidAccessToken_failed_refresh_clears
    (auth : OAuthAuth) (now : Int)
    (refreshFn : String → Except String TokenResponse)
    (decodeJwtFn : String → Except String IdTokenClaims) (err : String)
    (hexp : ¬ auth.expires - bufferMs > now)
    (hfail : refreshFn auth.refresh = Except.error err) :
    getValidAccessToken (some auth) now refreshFn decodeJwtFn =
      { token := none, stored := none, refreshCalls := 1 } := by
  simp [getValidAccessToken, if_neg hexp, hfail]

/-- Witness for C6 at a concrete expired credential whose refresh is
rejected. -/
theorem getValidAccessToken_failed_refresh_clears_witness :
    getValidAccessToken
        (some { access := "A", refresh := "R", expires := 200000, accountId := some "acct" })
        100000 (fun _ => Except.error "401") (fun _ => Except.error "bad") =
      { token := none, stored := none, refreshCalls := 1 } :=
  getValidAccessToken_failed_refresh_clears _ 100000 _ _ "401" (by decide) rfl

/-- Claim C7: an OAuth callback whose state differs from the stored
state fails with the CSRF-mismatch error, makes no token-exchange call,
and persists no credential. -/
theorem handleOAuthCallback_state_mismatch
    (state ss : String) (pkce : PkceCodes) (now : Int)
    (exchangeFn : PkceCodes → Except String TokenResponse)
    (decodeJwtFn : String → Except String IdTokenClaims)
    (hne : state ≠ ss) :
    handleOAuthCallback state (some ss) (some pkce) now exchangeFn decodeJwtFn =
      { outcome := Except.error "OAuth state mismatch - possible CSRF attack",
        saved := none, exchangeCalls := 0 } := by
  simp [handleOAuthCallback, hne]

/-- Witness for C7 at a concrete mismatched callback. -/
theorem handleOAuthCallback_state_mismatch_witness :
    handleOAuthCallback "attacker" (some "expected") (some { verifier := "v", challenge := "c" })
        0 (fun _ => Except.error "no network") (fun _ => Except.error "bad") =
      { outcome := Except.error "OAuth state mismatch - possible CSRF attack",
        saved := none, exchangeCalls := 0 } :=
  handleOAuthCallback_state_mismatch "attacker" "expected" _ 0 _ _ (by decide)

/-- Claim C9: dispatching an unregistered tool name returns the ordinary
value `{error: "Unknown tool: <name>"}` (and `executeTool` is a total
function, so it never throws); a registered handler that throws is
converted to `{error: String(cause)}`. -/
theorem executeTool_fails_closed
    (registry : ToolRegistry) (toolName : String) (args : ArgsRecord) :
    (registry toolName = none →
      executeTool registry toolName args =
        Jv.obj [("error", Jv.str ("Unknown tool: " ++ toolName))]) ∧
    (∀ (tool : ToolEntry) (f : ArgsRecord → Except String Jv) (err : String),
      registry toolName = some tool → tool.execute = some f →
      f args = Except.error err →
      executeTool registry toolName args = Jv.obj [("error", Jv.str err)]) := by
  constructor
  · intro h
    simp [executeTool, h]
  · intro tool f err h1 h2 h3
    simp [executeTool, h1, h2, h3]

/-- Witness for C9: a concrete registry with one throwing tool, hit with
an unregistered name and with the throwing handler. -/
theorem executeTool_fails_closed_witness :
    (executeTool regBoom "ghost" [] =
      Jv.obj [("error", Jv.str "Unknown tool: ghost")]) ∧
    (executeTool regBoom "boom" [] = Jv.obj [("error", Jv.str "kaboom")]) :=
  ⟨(executeTool_fails_closed regBoom "ghost" []).1 (by simp [regBoom]),
   (executeTool_fails_closed regBoom "boom" []).2
     { execute := some (fun _ => Except.error "kaboom") }
     (fun _ => Except.error "kaboom") "kaboom" (by simp [regBoom]) rfl rfl⟩

/-- Claim C8 counterexample: a claims object whose direct
`chatgpt_account_id` is present but equal to `""`.  JS `||` treats the
empty string as falsy, so extraction skips the present direct claim and
returns the nested namespaced claim instead. -/
theorem extractAccountId_direct_claim_counterexample :
    (let claims : IdTokenClaims :=
      { chatgpt_account_id := some "",
        apiAuth := some { chatgpt_account_id := some "nested-id" },
        organizations := some [{ id := "org-id" }],
        email := none }
     claims.chatgpt_account_id = some "" ∧
       extractAccountIdFromClaims claims = some "nested-id" ∧
       some "nested-id" ≠ some "") :=
  ⟨rfl, rfl, by decide⟩

/-- Claim C8 (amended): account-id extraction prefers a truthy (present
and non-empty) direct claim over a truthy nested namespaced claim over
the first organizations entry; a field holding the empty string is
treated as absent by the JS `||` chain. -/
theorem extractAccountId_precedence (claims : IdTokenClaims) :
    (jsTruthy claims.chatgpt_account_id = true →
      extractAccountIdFromClaims claims = claims.chatgpt_account_id) ∧
    (jsTruthy claims.chatgpt_account_id = false →
      jsTruthy (claims.apiAuth.bind (·.chatgpt_account_id)) = true →
      extractAccountIdFromClaims claims = claims.apiAuth.bind (·.chatgpt_account_id)) ∧
    (jsTruthy claims.chatgpt_account_id = false →
      jsTruthy (claims.apiAuth.bind (·.chatgpt_account_id)) = false →
      extractAccountIdFromClaims claims =
        (claims.organizations.bind List.head?).map (·.id)) := by
  refine ⟨fun h1 => ?_, fun h1 h2 => ?_, fun h1 h2 => ?_⟩ <;>
    simp [extractAccountIdFromClaims, jsOrOpt, h1]
  · simp [h2]
  · simp [h2]

/-- Witness for the amended C8: with all three sources present and
non-empty, the direct claim wins. -/
theorem extractAccountId_precedence_witness :
    extractAccountIdFromClaims
        { chatgpt_account_id := some "direct-id",
          apiAuth := some { chatgpt_account_id := some "nested-id" },
          organizations := some [{ id := "org-id" }],
          email := none } = some "direct-id" :=
  (extractAccountId_precedence _).1 (by decide)

/-- Claim C1 counterexample: a turn whose single argument fragment is
`"ARGS"` and whose finalized event carries no complete-arguments field.
The pending buffer correctly accumulated `"ARGS"`, but the finalized
argument string is the literal `"\x7b\x7d"` (the JS `item.arguments || "{}"`
default), not the accumulated buffer. -/
theorem toolcall_buffer_fallback_counterexample :
    (runEvents [evAddedC1, evArgsDeltaC1]).pending =
        [(some "call_1", { name := some "get_scene", arguments := "ARGS" })] ∧
    (runEvents [evAddedC1, evArgsDeltaC1, evDoneC1]).toolCalls =
        [{ id := some "call_1", name := some "get_scene", arguments := "\x7b\x7d" }] ∧
    "\x7b\x7d" ≠ "ARGS" :=
  ⟨rfl, rfl, by decide⟩

/-- Claim C1 (amended): an argument-fragment event appends its fragment
to the pending buffer (so the buffer is the exact concatenation of the
fragments in emission order), but the finalized argument string is taken
from the terminal event's own complete-arguments field when that is
present and non-empty, and is the literal `"\x7b\x7d"` otherwise — the
accumulated buffer is never consulted at finalization. -/
theorem toolcall_arguments_finalization (st : StreamState) (e : SSEEvent) :
    (∀ entry : PendingCall,
      e.type = some "response.function_call_arguments.delta" →
      mapGet st.pending (jsOrOpt e.call_id e.item_id) = some entry →
      (processEvent st e).pending =
        mapSet st.pending (jsOrOpt e.call_id e.item_id)
          { entry with arguments := entry.arguments ++ jsOr e.delta "" }) ∧
    (∀ item : SSEItem,
      e.type = some "response.output_item.done" → e.item = some item →
      item.type = some "function_call" →
      (processEvent st e).toolCalls =
        st.toolCalls ++
          [{ id := jsOrOpt item.call_id item.id, name := item.name,
             arguments := jsOr item.arguments "\x7b\x7d" }]) := by
  constructor
  · intro entry htype hget
    simp [processEvent, htype, hget]
  · intro item htype hitem hfn
    cases hc : item.content with
    | none => simp [processEvent, htype, hitem, hfn, hc]
    | some parts => simp [processEvent, htype, hitem, hfn, hc]

/-- Witness for the amended C1 at a concrete state and fragment: the
buffer `"AB"` grows to `"ABCD"` on fragment `"CD"`, and a finalized
event with arguments field `"FULL"` pushes `"FULL"`. -/
theorem toolcall_arguments_finalization_witness :
    ((processEvent stC1
        { type := some "response.function_call_arguments.delta", delta := some "CD",
          call_id := some "call_1", item_id := none, item := none }).pending =
      mapSet stC1.pending (jsOrOpt (some "call_1") none)
        { name := some "get_scene", arguments := "AB" ++ jsOr (some "CD") "" }) ∧
    ((processEvent stC1
        { type := some "response.output_item.done", delta := none, call_id := none,
          item_id := none,
          item := some { type := some "function_call", id := some "call_1",
                         call_id := some "call_1", name := some "get_scene",
                         arguments := some "FULL", content := none } }).toolCalls =
      stC1.toolCalls ++
        [{ id := jsOrOpt (some "call_1") (some "call_1"), name := some "get_scene",
           arguments := jsOr (some "FULL") "\x7b\x7d" }]) :=
  ⟨(toolcall_arguments_finalization stC1 _).1
      { name := some "get_scene", arguments := "AB" } rfl rfl,
   (toolcall_arguments_finalization stC1 _).2
      { type := some "function_call", id := some "call_1", call_id := some "call_1",
        name := some "get_scene", arguments := some "FULL", content := none }
      rfl rfl rfl⟩

/-- The loop issues at most `fuel` further requests. -/
theorem loopGo_requests_length_le (oracle : Oracle) (registry : ToolRegistry)
    (parseArgs : String → Option ArgsRecord) (stringifyFn : Jv → String) :
    ∀ (fuel iter : Nat) (hist : List InputItem) (txt : String)
      (reqs : List (List InputItem)),
      (loopGo oracle registry parseArgs stringifyFn fuel iter hist txt reqs).requests.length ≤
        reqs.length + fuel := by
  intro fuel
  induction fuel with
  | zero => intro iter hist txt reqs; simp [loopGo]
  | succ n ih =>
    intro iter hist txt reqs
    simp only [loopGo]
    split
    · simp
    · calc (loopGo oracle registry parseArgs stringifyFn n (iter + 1) _ _
            (reqs ++ [hist])).requests.length ≤ (reqs ++ [hist]).length + n := ih _ _ _ _
        _ = reqs.length + (n + 1) := by simp; omega

/-- Against a model that requests a tool call on every turn, the loop
consumes all its fuel: it issues exactly `fuel` further requests and the
counter advances by `fuel`. -/
theorem loopGo_always_toolcalls (oracle : Oracle) (registry : ToolRegistry)
    (parseArgs : String → Option ArgsRecord) (stringifyFn : Jv → String)
    (halways : ∀ hist, (oracle hist).toolCalls ≠ []) :
    ∀ (fuel iter : Nat) (hist : List InputItem) (txt : String)
      (reqs : List (List InputItem)),
      (loopGo oracle registry parseArgs stringifyFn fuel iter hist txt reqs).requests.length =
          reqs.length + fuel ∧
        (loopGo oracle registry parseArgs stringifyFn fuel iter hist txt reqs).iterations =
          iter + fuel := by
  intro fuel
  induction fuel with
  | zero => intro iter hist txt reqs; simp [loopGo]
  | succ n ih =>
    intro iter hist txt reqs
    simp only [loopGo]
    split
    · exact absurd (List.isEmpty_iff.mp (by assumption)) (halways hist)
    · refine ⟨?_, ?_⟩
      · rw [(ih _ _ _ _).1]; simp; omega
      · rw [(ih _ _ _ _).2]; omega

/-- Claim C3: for every model behaviour the loop issues at most
`MAX_ITERATIONS = 10` outbound requests; against a model that requests a
tool call on every turn it issues exactly 10 requests, stops, and the
final text carries the ceiling-reached advisory appended. -/
theorem codexChat_iteration_ceiling :
    (∀ (oracle : Oracle) (registry : ToolRegistry)
       (parseArgs : String → Option ArgsRecord) (stringifyFn : Jv → String)
       (messages : List CodexMessage),
      (codexChat oracle registry parseArgs stringifyFn messages).requests.length ≤
        MAX_ITERATIONS) ∧
    (∀ (oracle : Oracle) (registry : ToolRegistry)
       (parseArgs : String → Option ArgsRecord) (stringifyFn : Jv → String)
       (messages : List CodexMessage),
      (∀ hist, (oracle hist).toolCalls ≠ []) →
      (codexChat oracle registry parseArgs stringifyFn messages).requests.length =
          MAX_ITERATIONS ∧
        ∃ t, (codexChat oracle registry parseArgs stringifyFn messages).text =
          t ++ advisoryText) := by
  constructor
  · intro oracle registry parseArgs stringifyFn messages
    unfold codexChat finishRun
    split <;>
      simpa using loopGo_requests_length_le oracle registry parseArgs stringifyFn
        MAX_ITERATIONS 0 (convertToCodexInput messages) "" []
  · intro oracle registry parseArgs stringifyFn messages halways
    have h := loopGo_always_toolcalls oracle registry parseArgs stringifyFn halways
      MAX_ITERATIONS 0 (convertToCodexInput messages) "" []
    unfold codexChat finishRun
    rw [if_pos (by rw [h.2]; simp)]
    refine ⟨by simpa using h.1, _, rfl⟩

/-- Witness for C3: a concrete always-tool-calling model behaviour. -/
theorem codexChat_iteration_ceiling_witness :
    (codexChat oracleAlways regNone parseNone stringifyConst
        [{ role := Role.user, content := "hi" }]).requests.length = MAX_ITERATIONS ∧
    ∃ t, (codexChat oracleAlways regNone parseNone stringifyConst
        [{ role := Role.user, content := "hi" }]).text = t ++ advisoryText :=
  codexChat_iteration_ceiling.2 oracleAlways regNone parseNone stringifyConst
    [{ role := Role.user, content := "hi" }] (fun _ => by simp [oracleAlways])

/-- Claim C10: in every run whose final iteration counter reached
`MAX_ITERATIONS`, the advisory is appended to the final text — the
condition is only on the counter, not on whether the last turn still
requested tool calls. -/
theorem codexChat_advisory_on_ceiling (oracle : Oracle) (registry : ToolRegistry)
    (parseArgs : String → Option ArgsRecord) (stringifyFn : Jv → String)
    (messages : List CodexMessage)
    (hreach : (codexChat oracle registry parseArgs stringifyFn messages).iterations =
      MAX_ITERATIONS) :
    ∃ t, (codexChat oracle registry parseArgs stringifyFn messages).text =
      t ++ advisoryText := by
  unfold codexChat finishRun at hreach ⊢
  split at hreach
  · split
    · exact ⟨_, rfl⟩
    · simp_all
  · exfalso
    have : MAX_ITERATIONS ≥ MAX_ITERATIONS := le_refl _
    simp_all

/-- Witness for C10: a model behaviour whose tenth (final) turn produces
no tool calls and completes normally, yet the advisory is appended. -/
theorem codexChat_advisory_on_ceiling_witness :
    ∃ t, (codexChat oracleNine regNone parseNone stringifyConst
        [{ role := Role.user, content := "hi" }]).text = t ++ advisoryText :=
  codexChat_advisory_on_ceiling oracleNine regNone parseNone stringifyConst
    [{ role := Role.user, content := "hi" }] rfl

/-- The pairing invariant is preserved when the trace is truncated on
the right. -/
theorem chainLinked_of_append (registry : ToolRegistry)
    (parseArgs : String → Option ArgsRecord) (stringifyFn : Jv → String)
    (oracle : Oracle) (l l' : List (List InputItem))
    (h : chainLinked registry parseArgs stringifyFn oracle (l ++ l')) :
    chainLinked registry parseArgs stringifyFn oracle l := by
  intro i a b ha hb
  have hi : i + 1 < l.length := (List.getElem?_eq_some.mp hb).1
  exact h i a b
    (by rw [List.getElem?_append_left (by omega)]; exact ha)
    (by rw [List.getElem?_append_left hi]; exact hb)

/-- The pairing invariant is preserved when the next request's
transcript (the last one extended by the paired block of its turn) is
appended to the trace. -/
theorem chainLinked_snoc (registry : ToolRegistry)
    (parseArgs : String → Option ArgsRecord) (stringifyFn : Jv → String)
    (oracle : Oracle) (reqs : List (List InputItem)) (hist : List InputItem)
    (h : chainLinked registry parseArgs stringifyFn oracle (reqs ++ [hist])) :
    chainLinked registry parseArgs stringifyFn oracle
      ((reqs ++ [hist]) ++ [hist ++ pairedBlock registry parseArgs stringifyFn (oracle hist)]) := by
  intro i a b ha hb
  have hlen : (reqs ++ [hist]).length = reqs.length + 1 := by simp
  have hb_lt : i + 1 < ((reqs ++ [hist]) ++ [_]).length := (List.getElem?_eq_some.mp hb).1
  simp only [List.length_append, List.length_cons, List.length_nil] at hb_lt
  by_cases hi : i + 1 < (reqs ++ [hist]).length
  · exact h i a b
      (by rw [List.getElem?_append_left (by omega)] at ha; exact ha)
      (by rw [List.getElem?_append_left hi] at hb; exact hb)
  · have hieq : i = reqs.length := by
      simp only [List.length_append, List.length_cons, List.length_nil] at hi
      omega
    have ha' : a = hist := by
      rw [List.getElem?_append_left (by omega), hieq,
        List.getElem?_concat_length] at ha
      exact (Option.some.injEq _ _).mp ha.symm
    have hb' : b = hist ++ pairedBlock registry parseArgs stringifyFn (oracle hist) := by
      have : i + 1 = (reqs ++ [hist]).length := by omega
      rw [this, List.getElem?_concat_length] at hb
      exact (Option.some.injEq _ _).mp hb.symm
    rw [ha', hb']

/-- The loop preserves the pairing invariant of the request trace. -/
theorem loopGo_chainLinked (oracle : Oracle) (registry : ToolRegistry)
    (parseArgs : String → Option ArgsRecord) (stringifyFn : Jv → String) :
    ∀ (fuel iter : Nat) (hist : List InputItem) (txt : String)
      (reqs : List (List InputItem)),
      chainLinked registry parseArgs stringifyFn oracle (reqs ++ [hist]) →
      chainLinked registry parseArgs stringifyFn oracle
        (loopGo oracle registry parseArgs stringifyFn fuel iter hist txt reqs).requests := by
  intro fuel
  induction fuel with
  | zero =>
    intro iter hist txt reqs h
    exact chainLinked_of_append registry parseArgs stringifyFn oracle reqs [hist] h
  | succ n ih =>
    intro iter hist txt reqs h
    simp only [loopGo]
    split
    · exact h
    · exact ih _ _ _ _
        (chainLinked_snoc registry parseArgs stringifyFn oracle reqs hist h)

/-- Claim C4: in every run of the agentic loop, each outbound request's
transcript extends the previous one exactly by one
`function_call`/`function_call_output` pair per tool call of the
previous turn, in emission order and with matching `call_id` — in
particular the transcript is append-only and every appended invocation
is followed by exactly one paired result before the next request. -/
theorem codexChat_transcript_paired (oracle : Oracle) (registry : ToolRegistry)
    (parseArgs : String → Option ArgsRecord) (stringifyFn : Jv → String)
    (messages : List CodexMessage) :
    chainLinked registry parseArgs stringifyFn oracle
      (codexChat oracle registry parseArgs stringifyFn messages).requests := by
  have base : chainLinked registry parseArgs stringifyFn oracle
      ([] ++ [convertToCodexInput messages]) := by
    intro i a b _ hb
    have := (List.getElem?_eq_some.mp hb).1
    simp at this
  have h := loopGo_chainLinked oracle registry parseArgs stringifyFn
    MAX_ITERATIONS 0 (convertToCodexInput messages) "" [] base
  unfold codexChat finishRun
  split
  · intro i a b ha hb; exact h i a b ha hb
  · exact h

/-- Witness for C4: in a concrete one-tool-call run, the second
request's transcript is the first one plus the paired
invocation/result block. -/
theorem codexChat_transcript_paired_witness :
    [InputItem.userText "hi",
     InputItem.functionCall (some "c1") (some "t") "\x7b\x7d",
     InputItem.functionCallOutput (some "c1") "OUT"] =
      [InputItem.userText "hi"] ++
        pairedBlock regNone parseNone stringifyConst
          (oracleOnce [InputItem.userText "hi"]) :=
  codexChat_transcript_paired oracleOnce regNone parseNone stringifyConst
    [{ role := Role.user, content := "hi" }] 0
    [InputItem.userText "hi"]
    [InputItem.userText "hi",
     InputItem.functionCall (some "c1") (some "t") "\x7b\x7d",
     InputItem.functionCallOutput (some "c1") "OUT"]
    rfl rfl

/-- The trailing piece of a split never contains a newline. -/
theorem splitLines_snd_no_newline (s : List Char) : '\n' ∉ (splitLines s).2 := by
  induction s with
  | nil => simp [splitLines]
  | cons c cs ih =>
    simp only [splitLines]
    unfold consLine
    by_cases hc : c = '\n'
    · simpa [hc] using ih
    · rw [if_neg hc]
      rcases hsp : splitLines cs with ⟨ls, r⟩
      rw [hsp] at ih
      cases ls with
      | nil =>
        simp only [List.mem_cons]
        rintro (h | h)
        · exact hc h.symm
        · exact ih h
      | cons l ls' => exact ih

/-- A newline-free stream splits into no complete line and itself as the
trailing piece. -/
theorem splitLines_eq_of_no_newline (s : List Char) (h : '\n' ∉ s) :
    splitLines s = ([], s) := by
  induction s with
  | nil => rfl
  | cons c cs ih =>
    simp only [List.mem_cons, not_or] at h
    simp only [splitLines, ih h.2]
    unfold consLine
    rw [if_neg (fun hc => h.1 hc.symm)]

/-- Splitting a concatenation: the complete lines of `a ++ b` are the
complete lines of `a` followed by those of `a`'s trailing piece
prepended to `b`. -/
theorem splitLines_append (a b : List Char) :
    splitLines (a ++ b) =
      ((splitLines a).1 ++ (splitLines ((splitLines a).2 ++ b)).1,
       (splitLines ((splitLines a).2 ++ b)).2) := by
  induction a with
  | nil => simp [splitLines]
  | cons c a' ih =>
    show consLine c (splitLines (a' ++ b)) = _
    rw [ih]
    by_cases hc : c = '\n'
    · subst hc
      simp [splitLines, consLine]
    · rcases h' : splitLines a' with ⟨ls, r⟩
      cases ls with
      | nil =>
        simp only [splitLines, h', consLine, if_neg hc, List.nil_append]
        rfl
      | cons l ls' =>
        simp only [splitLines, h', consLine, if_neg hc, List.cons_append]

/-- Feeding any chunk sequence from a newline-free rolling buffer is the
same as splitting the buffer plus the whole remaining payload at
once. -/
theorem processStream_foldl (parse : List Char → Option SSEEvent) :
    ∀ (chunks : List (List Char)) (evs : List SSEEvent) (buf : List Char),
      '\n' ∉ buf →
      chunks.foldl (processChunk parse) (evs, buf) =
        (evs ++ (splitLines (buf ++ chunks.flatten)).1.filterMap (decodeLine parse),
         (splitLines (buf ++ chunks.flatten)).2) := by
  intro chunks
  induction chunks with
  | nil =>
    intro evs buf hb
    simp [splitLines_eq_of_no_newline buf hb]
  | cons c cs ih =>
    intro evs buf hb
    rw [List.foldl_cons,
      show processChunk parse (evs, buf) c =
        (evs ++ (splitLines (buf ++ c)).1.filterMap (decodeLine parse),
         (splitLines (buf ++ c)).2) from rfl,
      ih _ _ (splitLines_snd_no_newline _), List.flatten_cons,
      show buf ++ (c ++ cs.flatten) = (buf ++ c) ++ cs.flatten from
        (List.append_assoc buf c cs.flatten).symm,
      splitLines_append (buf ++ c) cs.flatten]
    simp [List.filterMap_append, List.append_assoc]

/-- Claim C2: feeding a stream payload to the parser in chunks split at
arbitrary boundaries yields exactly the same state — in particular the
same decoded event sequence — as feeding it as one chunk; and the
events are exactly those decoded from the payload's complete lines, so
no event is ever emitted from the trailing incomplete line. -/
theorem streamParse_chunk_invariant (parse : List Char → Option SSEEvent)
    (chunks : List (List Char)) :
    processStream parse chunks = processStream parse [chunks.flatten] ∧
    (processStream parse chunks).1 =
      (splitLines chunks.flatten).1.filterMap (decodeLine parse) := by
  have h1 := processStream_foldl parse chunks [] [] (by simp)
  have h2 := processStream_foldl parse [chunks.flatten] [] [] (by simp)
  unfold processStream
  constructor
  · rw [h1, h2]; simp
  · rw [h1]; simp

end Stud
